import Mathlib

/-!
Shallow embedding of henryse/go-qvrpro (package `qvrpro`).

The repository holds two near-identical revisions of the same Go file:
`src/qvrpro.go` (older, no application flavour) and `src/unnamed/part_000`
(newer, carries a `QvrApplication` flavour on the connection and fixes some
error checks).  Where the two revisions differ in behaviour both are
embedded, suffixed `V1` (qvrpro.go) and `V2` (part_000); identical logic is
embedded once.

Network and OS effects are parametrised by oracle structures: a Boolean per
fallible call-site (`url.Parse` success, `client.Get` success, body-read
success, XML/JSON decode success) plus the payload the oracle delivers on
success.  A Go runtime panic (nil-pointer dereference, out-of-range index)
is modelled by an `Option` result being `none`.  Go `int` is modelled as
`Int` (64-bit in the build; no claim exercises overflow), and Unix times as
`Int`.
-/

/-- Connection state, from `type Connection struct` (part_000 adds `qvrApp`;
for the V1 functions the field is simply unused). -/
structure Connection where
  url : String
  sid : String
  expire : Int
  timeout : Int
  qvrApp : String
  deriving Repr, DecidableEq

/-- Observable network side effects issued by the session functions. -/
inductive Event where
  | authRequest : Event
  | logoutNotify : Event
  deriving Repr, DecidableEq

/-- Errors surfaced by the embedded functions.  `urlErr`/`getErr`/`readErr`
stand for the opaque error values of `url.Parse`, `client.Get` and body
reads; `msgErr` carries a message built with `errors.New`. -/
inductive GoErr where
  | urlErr : GoErr
  | getErr : GoErr
  | readErr : GoErr
  | msgErr : String → GoErr
  deriving Repr, DecidableEq

/-- Oracle for one `Logout` call: whether `url.Parse(connection.url)`
succeeds and whether the logout-notify `client.Get` succeeds. -/
structure LogoutNet where
  urlOk : Bool
  getOk : Bool
  deriving Repr, DecidableEq

/-- `Logout` from src/qvrpro.go:155-182.  The notify outcome is only
logged; the session is cleared unconditionally.  Returns the new state and
the list of network requests issued. -/
def LogoutV1 (c : Connection) (net : LogoutNet) : Connection × List Event :=
  if net.urlOk then
    ({ c with expire := 0, sid := "" }, [Event.logoutNotify])
  else
    ({ c with expire := 0, sid := "" }, [])

/-- `Logout` from src/unnamed/part_000:197-229.  When `client.Get` fails it
returns a nil response together with the error; the function logs the error
but then evaluates `response.Body` as the argument of the deferred close,
dereferencing the nil response: a runtime panic (`none`) before the session
fields are cleared. -/
def LogoutV2 (c : Connection) (net : LogoutNet) : Option (Connection × List Event) :=
  if net.urlOk then
    if net.getOk then
      some ({ c with expire := 0, sid := "" }, [Event.logoutNotify])
    else
      none
  else
    some ({ c with expire := 0, sid := "" }, [])

/-- Oracle for one `Login` call: success of `url.Parse`, of the
authentication `client.Get`, of the body read and of `xml.Unmarshal`, and
the `authPassed`/`authSid` fields the decoded `QDocRoot` carries. -/
structure LoginNet where
  urlOk : Bool
  getOk : Bool
  readOk : Bool
  xmlOk : Bool
  authPassed : Int
  authSid : String
  deriving Repr, DecidableEq

/-- The body of `Login` past the cached-session check
(src/qvrpro.go:190-245).  Every failure branch before the XML fields are
inspected calls `connection.Logout()`, which re-parses the same URL (hence
the reuse of `net.urlOk`) and clears the session.  When `authPassed ≠ 0`
the token and a fresh expiry `now + timeout` are stored; when
`authPassed = 0` the function only logs "Auth Failed" and returns false,
leaving the connection state untouched. -/
def freshLogin (c : Connection) (now : Int) (net : LoginNet) :
    Bool × Connection × List Event :=
  if net.urlOk = false then
    let (c2, ev) := LogoutV1 c { urlOk := net.urlOk, getOk := true }
    (false, c2, ev)
  else if net.getOk = false then
    let (c2, ev) := LogoutV1 c { urlOk := net.urlOk, getOk := true }
    (false, c2, Event.authRequest :: ev)
  else if net.readOk = false then
    let (c2, ev) := LogoutV1 c { urlOk := net.urlOk, getOk := true }
    (false, c2, Event.authRequest :: ev)
  else if net.xmlOk = false then
    let (c2, ev) := LogoutV1 c { urlOk := net.urlOk, getOk := true }
    (false, c2, Event.authRequest :: ev)
  else if net.authPassed ≠ 0 then
    (true, { c with sid := net.authSid, expire := now + c.timeout },
      [Event.authRequest])
  else
    (false, c, [Event.authRequest])

/-- `Login` from src/qvrpro.go:184-246 (identical in part_000:231-298 up to
the Logout variant it delegates to).  `now` is `time.Now().Unix()`.  If a
cached session id is non-empty and not yet expired, returns true at once
with no network traffic; otherwise runs the fresh authentication flow. -/
def Login (c : Connection) (now : Int) (net : LoginNet) :
    Bool × Connection × List Event :=
  if c.sid.length > 0 ∧ c.expire > now then
    (true, c, [])
  else
    freshLogin c now net

/-! ## Newline-delimited playback bodies -/

/-- Go `strings.Split(s, "\n")`, on the character list of the body.  Always
returns at least one piece; a body with no newline yields exactly one. -/
def splitNl : List Char → List (List Char)
  | [] => [[]]
  | ch :: rest =>
    if ch = '\n' then
      [] :: splitNl rest
    else
      match splitNl rest with
      | [] => [[ch]]
      | h :: t => (ch :: h) :: t

/-- Value of a decimal digit character. -/
def decDigitVal (ch : Char) : Option Nat :=
  if '0' ≤ ch ∧ ch ≤ '9' then some (ch.toNat - 48) else none

def decNatAux : List Char → Nat → Option Nat
  | [], acc => some acc
  | ch :: rest, acc =>
    match decDigitVal ch with
    | some d => decNatAux rest (acc * 10 + d)
    | none => none

/-- A non-empty all-digit run, as a natural number. -/
def decNat (s : List Char) : Option Nat :=
  if s.isEmpty then none else decNatAux s 0

/-- Go `code, _ := strconv.Atoi(s)`: optional sign then one or more decimal
digits; on a syntax error `Atoi` yields value 0, which the callers keep
because they discard the error.  (Go's 64-bit range clamping is not
modelled; no claim involves values near 2^63.) -/
def goAtoi (s : List Char) : Int :=
  match s with
  | '-' :: rest =>
    match decNat rest with
    | some n => -(n : Int)
    | none => 0
  | '+' :: rest =>
    match decNat rest with
    | some n => (n : Int)
    | none => 0
  | _ =>
    match decNat s with
    | some n => (n : Int)
    | none => 0

/-! ## The C hex helper and the error-code table -/

/-- Value of a hexadecimal digit character (either case). -/
def hexDigitVal (ch : Char) : Option Nat :=
  if '0' ≤ ch ∧ ch ≤ '9' then some (ch.toNat - 48)
  else if 'a' ≤ ch ∧ ch ≤ 'f' then some (ch.toNat - 87)
  else if 'A' ≤ ch ∧ ch ≤ 'F' then some (ch.toNat - 55)
  else none

/-- Greedy digit run in the given base, stopping at the first invalid
character (strtol semantics). -/
def greedyDigits (base : Nat) (dig : Char → Option Nat) : List Char → Nat → Nat
  | ch :: rest, acc =>
    match dig ch with
    | some d => greedyDigits base dig rest (base * acc + d)
    | none => acc
  | [], acc => acc

def octDigitVal (ch : Char) : Option Nat :=
  if '0' ≤ ch ∧ ch ≤ '7' then some (ch.toNat - 48) else none

/-- C `strtol(s, NULL, 0)`: skip leading blanks, optional sign, then a
`0x`-prefixed hexadecimal, `0`-prefixed octal, or decimal digit run. -/
def strtolBase0 (s : List Char) : Int :=
  let s1 := s.dropWhile (fun ch => ch = ' ' ∨ ch = '\t')
  let signed : Bool × List Char :=
    match s1 with
    | '-' :: rest => (true, rest)
    | '+' :: rest => (false, rest)
    | rest => (false, rest)
  let mag : Nat :=
    match signed.2 with
    | '0' :: 'x' :: rest => greedyDigits 16 hexDigitVal rest 0
    | '0' :: 'X' :: rest => greedyDigits 16 hexDigitVal rest 0
    | '0' :: rest => greedyDigits 8 octDigitVal rest 0
    | rest => greedyDigits 10 decDigitVal rest 0
  if signed.1 then -(mag : Int) else (mag : Int)

/-- Two's-complement truncation to a 32-bit C `int`. -/
def toInt32 (n : Int) : Int :=
  let m := n % 4294967296
  if m < 2147483648 then m else m - 4294967296

/-- `convertHexToInt` from src/qvrpro.go:56-62: the cgo helper calls
`strtol(hexString, NULL, 0)` (a 64-bit `long` on the build platform) and
returns it through a 32-bit C `int`, truncating the 0x93xxxxxx codes to
negative values. -/
def convertHexToInt (s : String) : Int :=
  toInt32 (strtolBase0 s.data)

/-- The static remote-error-code table populated once in `Create`
(src/qvrpro.go:126-149). -/
def errorCodes : List (Int × String) :=
  [ (convertHexToInt "0x93010002", "failed to open play session"),
    (convertHexToInt "0x93010006", "sid authentication failed"),
    (convertHexToInt "0x93010007", "failed to open session (session num full)"),
    (convertHexToInt "0x93010102", "start_time, end_time or time_val not specified"),
    (convertHexToInt "0x93010103", "channel_id not specified"),
    (convertHexToInt "0x93010104", "session_id not specified"),
    (convertHexToInt "0x93010107", "seek_time not specified"),
    (convertHexToInt "0x93010108", "session_id too long"),
    (convertHexToInt "0x93010109", "speed_num not specified"),
    (convertHexToInt "0x9301010B", "enable not specified"),
    (convertHexToInt "0x93010201", "failed to control stream"),
    (convertHexToInt "0x93010202", "session not found"),
    (convertHexToInt "0x93010203", "session is being closed"),
    (convertHexToInt "0x93010204", "no files found"),
    (convertHexToInt "0x93010003", "cmd is illegal"),
    (convertHexToInt "0x93010004", "insufficient memory"),
    (convertHexToInt "0x93000000", "Illegal Args"),
    (convertHexToInt "0x93000001", "Rejected Connection (DDOS)"),
    (convertHexToInt "0x93000002", "Exceeded Max Connection number"),
    (convertHexToInt "0x93000003", "Stream not ready"),
    (convertHexToInt "0x93000004", "Failed to start the stream"),
    (convertHexToInt "0x93000005", "Auth failed") ]

/-- `message, exists := errorCodes[code]`. -/
def errorCodesLookup (code : Int) : Option String :=
  (errorCodes.find? (fun p => p.1 == code)).map Prod.snd

/-! ## Playback protocol steps -/

/-- Oracle for one playback-step request: success of `url.Parse` and of
`client.Get`, whether the body read returned without error, and the bytes
it delivered. -/
structure PlayStepNet where
  urlOk : Bool
  getOk : Bool
  readOk : Bool
  body : String
  deriving Repr, DecidableEq

/-- `CreateSessionId` from src/qvrpro.go:309-356 (identical logic in
part_000:375-428).  `channelId` and `startTime` only feed the request URL.
Result: `none` models an index-out-of-range panic; otherwise the
`(sessionId, error)` pair together with the list of error-table messages
passed to `log.Println`.

The function-scope `err` set by `url.Parse` is the one returned at the
bottom; the `err`s introduced by `response, err := client.Get(...)` and
`bodyText, err := ioutil.ReadAll(...)` live in inner blocks and shadow it,
so the `err = errors.New(message)` assignment on a recognised non-zero code
is lost and the function returns a nil error whenever the URL parsed. -/
def CreateSessionId (c : Connection) (channelId : String) (startTime : Int)
    (net : PlayStepNet) : Option ((String × Option GoErr) × List String) :=
  if net.urlOk = false then
    some (("", some GoErr.urlErr), [])
  else if net.getOk = false then
    some (("", none), [])
  else if net.readOk = false then
    some (("", none), [])
  else
    let v := splitNl net.body.data
    match v.get? 1 with
    | none => none
    | some line1 =>
      let code := goAtoi line1
      if code = 0 then
        match v.get? 2 with
        | none => none
        | some line2 => some ((String.mk line2, none), [])
      else
        match errorCodesLookup code with
        | some message => some (("", none), [message])
        | none => some (("", none), [])

/-- `PlaySeek` from src/unnamed/part_000:430-477.  The read error at line
464 is assigned but never checked, so `net.body` is simply whatever the
read delivered.  (The src/qvrpro.go revision differs upstream of the parse:
it omits the `client.Get` error check at line 382 and dereferences a nil
response, but no claim exercises that path.) -/
def PlaySeekV2 (c : Connection) (sessionId : String) (seekTime : Int)
    (net : PlayStepNet) : Option ((Bool × Option GoErr) × List String) :=
  if net.urlOk = false then
    some ((false, some GoErr.urlErr), [])
  else if net.getOk = false then
    some ((false, some GoErr.getErr), [])
  else
    let v := splitNl net.body.data
    match v.get? 1 with
    | none => none
    | some line1 =>
      let code := goAtoi line1
      if code ≠ 0 then
        match errorCodesLookup code with
        | some message => some ((false, some (GoErr.msgErr message)), [])
        | none => some ((false, none), [])
      else
        some ((true, none), [])

/-- `Play` from src/unnamed/part_000:479-527 (the lowercase `play` of
src/qvrpro.go is the same parse but without the `client.Get` error check).
Identical to the seek step except that a recognised message is also passed
to `log.Println`. -/
def PlayV2 (c : Connection) (sessionId : String) (net : PlayStepNet) :
    Option ((Bool × Option GoErr) × List String) :=
  if net.urlOk = false then
    some ((false, some GoErr.urlErr), [])
  else if net.getOk = false then
    some ((false, some GoErr.getErr), [])
  else
    let v := splitNl net.body.data
    match v.get? 1 with
    | none => none
    | some line1 =>
      let code := goAtoi line1
      if code ≠ 0 then
        match errorCodesLookup code with
        | some message => some ((false, some (GoErr.msgErr message)), [message])
        | none => some ((false, none), [])
      else
        some ((true, none), [])

/-! ## The composed playback operation -/

/-- The four protocol steps, in the order `Video`/`PlayFrame` issues them. -/
inductive Step where
  | openStep : Step
  | seekStep : Step
  | playStep : Step
  | getStep : Step
  deriving Repr, DecidableEq

/-- Results the four step calls would deliver, one slot per step.  Each
slot abstracts the corresponding call (`CreateSessionId`, `PlaySeek`,
`play`, `PlayGet`), which are separate network round trips. -/
structure VideoNet where
  openSid : String
  openErr : Option GoErr
  seekOk : Bool
  seekErr : Option GoErr
  playOk : Bool
  playErr : Option GoErr
  getOk : Bool
  deriving Repr, DecidableEq

/-- The placeholder payload `[]byte(fmt.Sprintf("{\"Not\":\"Finished\"}"))`
returned while the function is under construction. -/
def notFinishedPayload : String := "\x7b\"Not\":\"Finished\"\x7d"

/-- `Video` from src/qvrpro.go:478-502 (same control flow as `PlayFrame`,
part_000:597-617).  Returns the `([]byte, error)` pair together with the
ordered list of steps that were invoked.  Each guard mirrors the source:
the open step "fails" when the returned session id is empty, seek and play
when their boolean result is false, and get when `PlayGet` returns false
(in which case the error is freshly built at line 497). -/
def Video (net : VideoNet) : (Option String × Option GoErr) × List Step :=
  if net.openSid.length = 0 then
    ((none, net.openErr), [Step.openStep])
  else if net.seekOk = false then
    ((none, net.seekErr), [Step.openStep, Step.seekStep])
  else if net.playOk = false then
    ((none, net.playErr), [Step.openStep, Step.seekStep, Step.playStep])
  else if net.getOk = false then
    ((none, some (GoErr.msgErr "unable to get play data")),
      [Step.openStep, Step.seekStep, Step.playStep, Step.getStep])
  else
    ((some notFinishedPayload, none),
      [Step.openStep, Step.seekStep, Step.playStep, Step.getStep])

/-! ## Log queries -/

/-- `LogEntry` from src/unnamed/part_000:663-688 (the `QvrProLogEntry` of
src/qvrpro.go is the same record without the trailing `application` field;
for the V1 function the field is simply carried through untouched). -/
structure LogEntry where
  utcTime : Int
  utcTimeS : String
  content : String
  level : Int
  logId : Int
  logType : Int
  nasIp : String
  nasName : String
  serverTime : Int
  sourceIp : String
  sourceName : String
  time : String
  timezone : String
  timezoneOrder : Int
  user : String
  action : String
  args : List String
  channelId : Int
  eventId : Int
  globalChannelId : String
  mainType : Int
  subType : Int
  subTypeOrder : Int
  application : String
  deriving Repr, DecidableEq

/-- `LogsResponse` / `QvrProLogsResponse`: the decoded JSON envelope. -/
structure LogsResponse where
  code : Int
  items : List LogEntry
  mesg : String
  responseItems : Int
  totalItems : Int
  deriving Repr, DecidableEq

/-- Oracle for one `Logs` call: `url.Parse` success, `client.Get` success,
and the result of `json.Unmarshal` on the bytes read (`none` covers both a
malformed body and a truncated read, whose own error the source drops). -/
structure LogsNet where
  urlOk : Bool
  getOk : Bool
  decoded : Option LogsResponse
  deriving Repr, DecidableEq

/-- `Logs` from src/qvrpro.go:588-623.  The `err` of
`response, err := client.Get(...)` at line 613 is never checked: when the
transport fails the response is nil and `ioutil.ReadAll(response.Body)`
dereferences it — a panic (`none`).  A decode failure returns the empty
list made at entry. -/
def LogsV1 (c : Connection) (logType : Nat) (start : Nat) (maxResults : Nat)
    (net : LogsNet) : Option (List LogEntry) :=
  if net.urlOk = false then
    some []
  else if net.getOk = false then
    none
  else
    match net.decoded with
    | none => some []
    | some resp => some resp.items

/-- `Logs` from src/unnamed/part_000:708-762.  URL-parse, transport and
decode failures all return the empty list; on success every item is
annotated with the connection's application flavour, in place and in
order. -/
def LogsV2 (c : Connection) (logType : Nat) (startTime : Int) (maxResults : Int)
    (net : LogsNet) : List LogEntry :=
  if net.urlOk = false then
    []
  else if net.getOk = false then
    []
  else
    match net.decoded with
    | none => []
    | some resp => resp.items.map (fun e => { e with application := c.qvrApp })

/-! ## Query-string construction (net/url `Values.Encode`) and re-parsing
(`url.ParseQuery`).  Modelled at the level of UTF-8 bytes, each byte a
`Nat` below 256. -/

/-- UTF-8 encoding of one scalar value. -/
def utf8EncodeChar (ch : Char) : List Nat :=
  let n := ch.toNat
  if n < 128 then [n]
  else if n < 2048 then [192 + n / 64, 128 + n % 64]
  else if n < 65536 then [224 + n / 4096, 128 + (n / 64) % 64, 128 + n % 64]
  else [240 + n / 262144, 128 + (n / 4096) % 64, 128 + (n / 64) % 64, 128 + n % 64]

/-- The UTF-8 bytes of a string, as Go sees it. -/
def utf8Bytes (s : String) : List Nat :=
  s.data.flatMap utf8EncodeChar

/-- Bytes Go's query escaper leaves untouched: ASCII letters, digits, and
`-` `.` `_` `~`. -/
def isUnreservedByte (b : Nat) : Bool :=
  if (65 ≤ b ∧ b ≤ 90) ∨ (97 ≤ b ∧ b ≤ 122) ∨ (48 ≤ b ∧ b ≤ 57)
      ∨ b = 45 ∨ b = 46 ∨ b = 95 ∨ b = 126 then
    true
  else
    false

/-- Upper-case hexadecimal digit for a value below 16. -/
def hexDigitUpper (n : Nat) : Nat :=
  if n < 10 then 48 + n else 55 + n

/-- Go `url.QueryEscape`, one byte: space becomes `+`, unreserved bytes
pass through, everything else becomes `%XX`. -/
def escapeByte (b : Nat) : List Nat :=
  if b = 32 then [43]
  else if isUnreservedByte b then [b]
  else [37, hexDigitUpper (b / 16), hexDigitUpper (b % 16)]

/-- Go `url.QueryEscape` over a byte sequence. -/
def queryEscape (s : List Nat) : List Nat :=
  s.flatMap escapeByte

/-- Value of a hexadecimal digit byte (Go `unhex`, either case). -/
def hexByteVal (b : Nat) : Option Nat :=
  if 48 ≤ b ∧ b ≤ 57 then some (b - 48)
  else if 97 ≤ b ∧ b ≤ 102 then some (b - 87)
  else if 65 ≤ b ∧ b ≤ 70 then some (b - 55)
  else none

/-- Go `url.QueryUnescape`: `%XX` decodes, `+` becomes space, a malformed
escape is an error. -/
def unescapeBytes : List Nat → Option (List Nat)
  | [] => some []
  | b :: rest =>
    if b = 37 then
      match rest with
      | h :: l :: rest2 =>
        match hexByteVal h, hexByteVal l with
        | some hv, some lv => (unescapeBytes rest2).map (fun r => (16 * hv + lv) :: r)
        | _, _ => none
      | _ => none
    else if b = 43 then
      (unescapeBytes rest).map (fun r => 32 :: r)
    else
      (unescapeBytes rest).map (fun r => b :: r)

/-- Go `strings.Split` on a single separator byte. -/
def splitOnByte (sep : Nat) : List Nat → List (List Nat)
  | [] => [[]]
  | b :: rest =>
    if b = sep then
      [] :: splitOnByte sep rest
    else
      match splitOnByte sep rest with
      | [] => [[b]]
      | h :: t => (b :: h) :: t

/-- One `key=value` piece of `url.ParseQuery`: reject a semicolon, cut at
the first `=` (a missing `=` leaves the value empty), unescape both halves.
(Go accumulates such errors while keeping other pairs; the model collapses
any error to `none`, which is all the round-trip claims need.) -/
def parsePiece (piece : List Nat) : Option (List Nat × List Nat) :=
  if piece.contains 59 then
    none
  else
    let k := piece.takeWhile (fun b => b != 61)
    let v := (piece.dropWhile (fun b => b != 61)).drop 1
    match unescapeBytes k, unescapeBytes v with
    | some k2, some v2 => some (k2, v2)
    | _, _ => none

/-- The `for` loop of `url.ParseQuery` over the `&`-separated pieces. -/
def parsePieces : List (List Nat) → Option (List (List Nat × List Nat))
  | [] => some []
  | p :: ps =>
    match parsePiece p, parsePieces ps with
    | some kv, some rest => some (kv :: rest)
    | _, _ => none

/-- Go `url.ParseQuery`: split on `&`, skip empty pieces, parse each. -/
def parseQueryBytes (l : List Nat) : Option (List (List Nat × List Nat)) :=
  parsePieces ((splitOnByte 38 l).filter (fun p => !p.isEmpty))

/-- Lexicographic byte order, as Go's `sort.Strings` orders the keys. -/
def byteLexLt : List Nat → List Nat → Bool
  | [], [] => false
  | [], _ :: _ => true
  | _ :: _, [] => false
  | a :: as, b :: bs => if a < b then true else if b < a then false else byteLexLt as bs

def insertSorted (p : List Nat × List Nat) :
    List (List Nat × List Nat) → List (List Nat × List Nat)
  | [] => [p]
  | q :: qs => if byteLexLt q.1 p.1 then q :: insertSorted p qs else p :: q :: qs

/-- Sort parameters by key.  `url.Values` is a map, so `Encode` emits keys
in sorted order; every call site adds each key once, so a plain sort of the
(key, value) pairs models it. -/
def sortParams : List (List Nat × List Nat) → List (List Nat × List Nat)
  | [] => []
  | p :: ps => insertSorted p (sortParams ps)

def encodePair (p : List Nat × List Nat) : List Nat :=
  queryEscape p.1 ++ 61 :: queryEscape p.2

def intercalateByte (sep : Nat) : List (List Nat) → List Nat
  | [] => []
  | [p] => p
  | p :: ps => p ++ sep :: intercalateByte sep ps

/-- Go `url.Values.Encode()`: escaped `key=value` pieces for the sorted
keys, joined by `&`. -/
def encodeQuery (ps : List (String × String)) : List Nat :=
  intercalateByte 38
    ((sortParams (ps.map (fun p => (utf8Bytes p.1, utf8Bytes p.2)))).map encodePair)

/-- Go `strconv.Itoa`: the decimal rendering of an int, minus sign
included. -/
def itoa (n : Int) : String :=
  if n < 0 then "-" ++ Nat.repr (-n).toNat else Nat.repr n.toNat

/-- The parameter list `Logs` builds in src/unnamed/part_000:719-730, in
`params.Add` order: `sid` always, `log_type` only when the filter is not
`AllLogType` (0), `start_time` only when the start time is non-zero, then
`sort_field=time`, `max_results`, `dir=ASC`. -/
def logsParamsV2 (c : Connection) (logType : Nat) (startTime : Int)
    (maxResults : Int) : List (String × String) :=
  [("sid", c.sid)]
    ++ (if logType ≠ 0 then [("log_type", itoa (logType : Int))] else [])
    ++ (if startTime ≠ 0 then [("start_time", itoa startTime)] else [])
    ++ [("sort_field", "time"), ("max_results", itoa maxResults), ("dir", "ASC")]

/-- The parameter list `Login` builds in src/qvrpro.go:199-202. -/
def loginParams (user password : String) : List (String × String) :=
  [("serviceKey", "1"), ("pwd", password), ("user", user)]

/-! ## Supporting lemmas -/

/-- A string has positive length exactly when it is not the empty string. -/
theorem string_length_pos (s : String) : 0 < s.length ↔ s ≠ "" := by
  cases s with
  | mk l => cases l <;> simp [String.length, String.ext_iff]

/-! ## C1: session re-use in `Login` -/

/-- C1: for a Connection whose cached session id is non-empty and whose
expiry is strictly in the future, `Login` returns true immediately with no
network call and an unchanged state; for a Connection whose session id is
empty or whose expiry is not in the future it runs the fresh
authentication flow instead of reusing the stale token: a true result then
requires `authPassed ≠ 0` from a fresh response, and whenever the base URL
parses the authentication request is actually issued. -/
theorem login_reuses_valid_session_only (c : Connection) (now : Int) (net : LoginNet) :
    (c.sid ≠ "" → c.expire > now → Login c now net = (true, c, [])) ∧
    ((c.sid = "" ∨ c.expire ≤ now) →
      Login c now net = freshLogin c now net ∧
      (net.urlOk = true → Event.authRequest ∈ (Login c now net).2.2) ∧
      ((Login c now net).1 = true → net.authPassed ≠ 0)) := by
  constructor
  · intro h1 h2
    have hl : c.sid.length > 0 := (string_length_pos c.sid).mpr h1
    unfold Login
    rw [if_pos ⟨hl, h2⟩]
  · intro h
    have hcond : ¬(c.sid.length > 0 ∧ c.expire > now) := by
      rcases h with h | h
      · rintro ⟨h1, -⟩
        rw [h] at h1
        simp [String.length] at h1
      · rintro ⟨-, h2⟩
        omega
    unfold Login
    rw [if_neg hcond]
    refine ⟨rfl, ?_, ?_⟩
    · intro hu
      unfold freshLogin
      rw [hu]
      simp only [Bool.true_eq_false, if_false, LogoutV1, if_true]
      split_ifs <;> simp
    · intro htrue
      unfold freshLogin at htrue
      split_ifs at htrue <;> simp_all [LogoutV1]

/-- C1 witness: a valid cached session (expiry 100, now 50) is reused with
no network events, and an empty session id forces the authentication
request even though a fresh response is available. -/
theorem login_reuses_valid_session_only_witness :
    Login ⟨"https://nas", "SID", 100, 60, "qvrpro"⟩ 50
        ⟨true, true, true, true, 1, "NEW"⟩ =
      (true, ⟨"https://nas", "SID", 100, 60, "qvrpro"⟩, []) ∧
    Event.authRequest ∈ (Login ⟨"https://nas", "", 0, 60, "qvrpro"⟩ 50
        ⟨true, true, true, true, 1, "NEW"⟩).2.2 :=
  ⟨(login_reuses_valid_session_only _ 50 _).1 (by decide) (by decide),
   ((login_reuses_valid_session_only _ 50 _).2 (Or.inl rfl)).2.1 rfl⟩

/-! ## C2: session state after a failed `Login` -/

/-- C2 counterexample: with a stale non-empty session (sid "OLD", expiry 5,
now 10) and a server answer of `authPassed = 0`, `Login` returns false yet
leaves the session id "OLD" and expiry 5 in place — the session is not
cleared after this failed login. -/
theorem login_auth_reject_not_cleared :
    (Login ⟨"https://nas", "OLD", 5, 60, "qvrpro"⟩ 10
        ⟨true, true, true, true, 0, ""⟩).1 = false ∧
    (Login ⟨"https://nas", "OLD", 5, 60, "qvrpro"⟩ 10
        ⟨true, true, true, true, 0, ""⟩).2.1.sid = "OLD" ∧
    (Login ⟨"https://nas", "OLD", 5, 60, "qvrpro"⟩ 10
        ⟨true, true, true, true, 0, ""⟩).2.1.expire = 5 := by
  decide

/-- C2 (amended): a `Login` that fails because of a URL-parse, transport,
body-read or XML-decode error leaves the session cleared (empty session id,
zero expiry); a `Login` that fails because of an authentication rejection
(`authPassed = 0`) leaves the connection state exactly as it was, in
particular without clearing it. -/
theorem login_failure_session_state (c : Connection) (now : Int) (net : LoginNet)
    (hfail : (Login c now net).1 = false) :
    ((net.urlOk = false ∨ net.getOk = false ∨ net.readOk = false ∨ net.xmlOk = false) →
      (Login c now net).2.1.sid = "" ∧ (Login c now net).2.1.expire = 0) ∧
    (net.urlOk = true → net.getOk = true → net.readOk = true → net.xmlOk = true →
      (Login c now net).2.1 = c) := by
  unfold Login at hfail ⊢
  by_cases hc : c.sid.length > 0 ∧ c.expire > now
  · rw [if_pos hc] at hfail
    exact absurd hfail (by simp)
  · rw [if_neg hc] at hfail ⊢
    unfold freshLogin at hfail ⊢
    split_ifs at hfail ⊢ <;> simp_all [LogoutV1]

/-- C2 witness: a transport failure during a fresh login clears a
previously stale session. -/
theorem login_failure_session_state_witness :
    (Login ⟨"https://nas", "OLD", 5, 60, "qvrpro"⟩ 10
        ⟨true, false, true, true, 1, "X"⟩).2.1.sid = "" ∧
    (Login ⟨"https://nas", "OLD", 5, 60, "qvrpro"⟩ 10
        ⟨true, false, true, true, 1, "X"⟩).2.1.expire = 0 :=
  (login_failure_session_state _ 10 _ (by decide)).1 (by decide)

/-! ## C6: `Logout` always clears, except for the part_000 nil-response slip -/

/-- C6: the qvrpro.go `Logout` terminates normally for every notify outcome
and always leaves an empty session id and zero expiry, with a notify
attempt only when the URL parses and its failure never propagated; but the
part_000 revision of `Logout`, given a transport failure of the notify
call, dereferences the nil response while registering the deferred body
close and panics before clearing anything. -/
theorem logout_clears_session :
    (∀ (c : Connection) (net : LogoutNet),
      (LogoutV1 c net).1.sid = "" ∧ (LogoutV1 c net).1.expire = 0 ∧
      (LogoutV1 c net).1.url = c.url ∧ (LogoutV1 c net).1.timeout = c.timeout) ∧
    LogoutV2 ⟨"https://nas", "SID", 99, 60, "qvrpro"⟩ ⟨true, false⟩ = none := by
  constructor
  · intro c net
    unfold LogoutV1
    split_ifs <;> simp
  · decide

/-! ## C7: `Logs` failure behaviour -/

/-- C7: the part_000 `Logs` returns the empty list on a URL-parse failure,
on a transport failure and on a JSON-decode failure, terminating normally;
but the qvrpro.go revision never checks the `client.Get` error, so a
transport failure there dereferences the nil response and panics instead of
returning the empty list. -/
theorem logs_failure_empty :
    (∀ (c : Connection) (lt : Nat) (st mr : Int) (g : Bool) (d : Option LogsResponse),
      LogsV2 c lt st mr ⟨false, g, d⟩ = [] ∧
      LogsV2 c lt st mr ⟨true, false, d⟩ = [] ∧
      LogsV2 c lt st mr ⟨true, true, none⟩ = []) ∧
    LogsV1 ⟨"https://nas", "SID", 99, 60, "qvrpro"⟩ 0 0 50 ⟨true, false, none⟩ = none := by
  constructor
  · intro c lt st mr g d
    refine ⟨rfl, rfl, rfl⟩
  · decide

/-! ## C9: `Logs` success behaviour -/

/-- C9: when the response decodes to an envelope with `code = 0`, the
part_000 `Logs` returns exactly the envelope's items, in order, each with
its `application` field set to the connection's application flavour. -/
theorem logs_returns_annotated_items (c : Connection) (lt : Nat) (st mr : Int)
    (resp : LogsResponse) (hcode : resp.code = 0) :
    LogsV2 c lt st mr ⟨true, true, some resp⟩ =
      resp.items.map (fun e => { e with application := c.qvrApp }) := rfl

/-- C9 witness: a two-item envelope with `code = 0` on a qvrelite
connection comes back as the same two entries, in order, annotated with
"qvrelite". -/
theorem logs_returns_annotated_items_witness :
    LogsV2 ⟨"https://nas", "SID", 99, 60, "qvrelite"⟩ 0 0 2
      ⟨true, true, some
        ⟨0,
         [⟨1, "t1", "first", 1, 10, 2, "ip1", "nas1", 5, "s1", "src1", "T1",
            "tz", 0, "alice", "login", ["a"], 7, 3, "g1", 1, 2, 3, ""⟩,
          ⟨2, "t2", "second", 2, 11, 3, "ip2", "nas2", 6, "s2", "src2", "T2",
            "tz", 1, "bob", "logout", [], 8, 4, "g2", 4, 5, 6, ""⟩],
         "ok", 2, 2⟩⟩ =
      [⟨1, "t1", "first", 1, 10, 2, "ip1", "nas1", 5, "s1", "src1", "T1",
         "tz", 0, "alice", "login", ["a"], 7, 3, "g1", 1, 2, 3, "qvrelite"⟩,
       ⟨2, "t2", "second", 2, 11, 3, "ip2", "nas2", 6, "s2", "src2", "T2",
         "tz", 1, "bob", "logout", [], 8, 4, "g2", 4, 5, 6, "qvrelite"⟩] := by
  have h := logs_returns_annotated_items
    ⟨"https://nas", "SID", 99, 60, "qvrelite"⟩ 0 0 2
    ⟨0,
     [⟨1, "t1", "first", 1, 10, 2, "ip1", "nas1", 5, "s1", "src1", "T1",
        "tz", 0, "alice", "login", ["a"], 7, 3, "g1", 1, 2, 3, ""⟩,
      ⟨2, "t2", "second", 2, 11, 3, "ip2", "nas2", 6, "s2", "src2", "T2",
        "tz", 1, "bob", "logout", [], 8, 4, "g2", 4, 5, 6, ""⟩],
     "ok", 2, 2⟩ rfl
  exact h.trans (by decide)

/-! ## C4/C5: the open step's body parsing -/

/-- C4: whatever the connection and channel, an open-step response body
"header\n0\nSESSION123\n" (status line "0", then a session identifier)
makes `CreateSessionId` return "SESSION123" with a nil error and nothing
logged from the error table. -/
theorem createSessionId_success_body (c : Connection) (channelId : String)
    (startTime : Int) :
    CreateSessionId c channelId startTime ⟨true, true, true, "header\n0\nSESSION123\n"⟩ =
      some (("SESSION123", none), []) := rfl

/-- C5 counterexample: on the body "header\n37752834\n" `CreateSessionId`
returns the empty session id with a nil error and logs no table message at
all — not an error carrying "sid authentication failed".  37752834 is not a
key of the error table: the table key for "0x93010006" is the int32
truncation -1828651002 of 0x93010006 = 2466316294 delivered by the cgo
strtol helper. -/
theorem createSessionId_code_37752834 :
    CreateSessionId ⟨"https://nas", "SID", 99, 60, "qvrpro"⟩ "ch1" 0
        ⟨true, true, true, "header\n37752834\n"⟩ = some (("", none), []) ∧
    errorCodesLookup 37752834 = none ∧
    convertHexToInt "0x93010006" = -1828651002 := by
  decide

/-- C5 (amended): for every open-step body whose status line parses to a
non-zero code (URL, transport and read all succeeding), `CreateSessionId`
returns the empty session id and a nil error; a code found in the error
table gets that table's message logged (and nothing else is available for
an unrecognised code), but because the `errors.New(message)` assignment
targets a shadowed inner `err`, the error the caller receives is nil in
both cases. -/
theorem createSessionId_nonzero_status (c : Connection) (channelId : String)
    (startTime : Int) (net : PlayStepNet) (line1 : List Char)
    (hu : net.urlOk = true) (hg : net.getOk = true) (hr : net.readOk = true)
    (hline : (splitNl net.body.data).get? 1 = some line1)
    (hnz : goAtoi line1 ≠ 0) :
    CreateSessionId c channelId startTime net =
      some (("", none), (errorCodesLookup (goAtoi line1)).toList) := by
  unfold CreateSessionId
  simp only [hu, hg, hr, Bool.true_eq_false, if_false]
  rw [hline]
  simp only [if_neg hnz]
  cases h : errorCodesLookup (goAtoi line1) <;> simp [h]

/-- C5 witness: the body carrying the decimal rendering -1828651002 of the
truncated code 0x93010006 exercises the recognised-code path: the table
message "sid authentication failed" is logged, yet the returned error is
still nil. -/
theorem createSessionId_nonzero_status_witness :
    CreateSessionId ⟨"https://nas", "SID", 99, 60, "qvrpro"⟩ "ch1" 0
        ⟨true, true, true, "header\n-1828651002\n"⟩ =
      some (("", none), ["sid authentication failed"]) := by
  have h := createSessionId_nonzero_status ⟨"https://nas", "SID", 99, 60, "qvrpro"⟩
    "ch1" 0 ⟨true, true, true, "header\n-1828651002\n"⟩ "-1828651002".data
    rfl rfl rfl (by decide) (by decide)
  exact h.trans (by decide)

/-! ## C10: panic conditions of the newline parsers -/

/-- `strings.Split` never yields an empty slice. -/
theorem splitNl_ne_nil (s : List Char) : splitNl s ≠ [] := by
  cases s with
  | nil => simp [splitNl]
  | cons ch rest =>
    unfold splitNl
    split_ifs
    · simp
    · cases h : splitNl rest <;> simp

/-- A body with no newline splits into exactly one line, itself. -/
theorem splitNl_no_newline (s : List Char) (h : '\n' ∉ s) : splitNl s = [s] := by
  induction s with
  | nil => rfl
  | cons ch rest ih =>
    have hch : ¬ch = '\n' := fun e => h (e ▸ List.mem_cons_self ch rest)
    have hrest : '\n' ∉ rest := fun m => h (List.mem_cons_of_mem _ m)
    unfold splitNl
    rw [if_neg hch, ih hrest]

/-- C10: with URL, transport and read all succeeding, a playback-step body
with no newline makes all three status-line parsers abort by panic (the
unconditional `v[1]` index is out of range); the seek and play parsers
complete normally exactly when the body splits into at least two
newline-separated lines, and the open parser exactly when it splits into at
least two lines and, if the status parses to zero, at least three. -/
theorem playback_parsers_need_two_lines (c : Connection)
    (channelId sessionId : String) (startTime seekTime : Int) (net : PlayStepNet)
    (hu : net.urlOk = true) (hg : net.getOk = true) (hr : net.readOk = true) :
    ('\n' ∉ net.body.data →
      CreateSessionId c channelId startTime net = none ∧
      PlaySeekV2 c sessionId seekTime net = none ∧
      PlayV2 c sessionId net = none) ∧
    ((PlaySeekV2 c sessionId seekTime net).isSome ↔
      2 ≤ (splitNl net.body.data).length) ∧
    ((PlayV2 c sessionId net).isSome ↔ 2 ≤ (splitNl net.body.data).length) ∧
    ((CreateSessionId c channelId startTime net).isSome ↔
      (2 ≤ (splitNl net.body.data).length ∧
        (goAtoi ((splitNl net.body.data).getD 1 []) = 0 →
          3 ≤ (splitNl net.body.data).length))) := by
  have key :
      ((PlaySeekV2 c sessionId seekTime net).isSome ↔
        2 ≤ (splitNl net.body.data).length) ∧
      ((PlayV2 c sessionId net).isSome ↔ 2 ≤ (splitNl net.body.data).length) ∧
      ((CreateSessionId c channelId startTime net).isSome ↔
        (2 ≤ (splitNl net.body.data).length ∧
          (goAtoi ((splitNl net.body.data).getD 1 []) = 0 →
            3 ≤ (splitNl net.body.data).length))) := by
    unfold PlaySeekV2 PlayV2 CreateSessionId
    simp only [hu, hg, hr, Bool.true_eq_false, if_false]
    cases h1 : (splitNl net.body.data).get? 1 with
    | none =>
      have hlen : (splitNl net.body.data).length ≤ 1 := List.get?_eq_none.mp h1
      simp [hlen]
      omega
    | some line1 =>
      have hlen : 1 < (splitNl net.body.data).length := (List.get?_eq_some.mp h1).1
      have hget : (splitNl net.body.data).getD 1 [] = line1 := by
        simp [List.getD_eq_getElem?_getD, ← List.get?_eq_getElem?, h1]
      dsimp only
      refine ⟨?_, ?_, ?_⟩
      · constructor
        · intro _; omega
        · intro _
          split_ifs with hc
          · cases hl : errorCodesLookup (goAtoi line1) <;> simp
          · simp
      · constructor
        · intro _; omega
        · intro _
          split_ifs with hc
          · cases hl : errorCodesLookup (goAtoi line1) <;> simp
          · simp
      · rw [hget]
        by_cases hc : goAtoi line1 = 0
        · rw [if_pos hc]
          cases h2 : (splitNl net.body.data).get? 2 with
          | none =>
            have : (splitNl net.body.data).length ≤ 2 := List.get?_eq_none.mp h2
            simp [hc]
            omega
          | some line2 =>
            have : 2 < (splitNl net.body.data).length := (List.get?_eq_some.mp h2).1
            simp [hc]
            omega
        · rw [if_neg hc]
          cases hl : errorCodesLookup (goAtoi line1) <;> simp [hc, hlen] <;> omega
  refine ⟨?_, key⟩
  intro hnl
  have hone : splitNl net.body.data = [net.body.data] := splitNl_no_newline _ hnl
  have hlen1 : (splitNl net.body.data).length = 1 := by rw [hone]; rfl
  refine ⟨?_, ?_, ?_⟩
  · have := key.2.2
    rw [← Option.not_isSome_iff_eq_none]
    intro hs
    have h2 := this.mp hs
    omega
  · rw [← Option.not_isSome_iff_eq_none]
    intro hs
    have h2 := key.1.mp hs
    omega
  · rw [← Option.not_isSome_iff_eq_none]
    intro hs
    have h2 := key.2.1.mp hs
    omega

/-- C10 witness: the empty body (no newline) makes all three parsers
panic. -/
theorem playback_parsers_need_two_lines_witness :
    CreateSessionId ⟨"https://nas", "SID", 99, 60, "qvrpro"⟩ "ch1" 0
        ⟨true, true, true, ""⟩ = none ∧
    PlaySeekV2 ⟨"https://nas", "SID", 99, 60, "qvrpro"⟩ "PS" 7
        ⟨true, true, true, ""⟩ = none ∧
    PlayV2 ⟨"https://nas", "SID", 99, 60, "qvrpro"⟩ "PS"
        ⟨true, true, true, ""⟩ = none :=
  (playback_parsers_need_two_lines ⟨"https://nas", "SID", 99, 60, "qvrpro"⟩
    "ch1" "PS" 0 7 ⟨true, true, true, ""⟩ rfl rfl rfl).1 (by decide)

/-! ## C3: ordering and short-circuiting of the composed playback flow -/

/-- C3: in `Video`/`PlayFrame`, the seek step is invoked only when the open
step returned a non-empty session id, the play step only when seek also
succeeded, and the get step only when play also succeeded; when a step
fails, no later step is invoked and the operation returns `nil` data
together with that step's error. -/
theorem video_steps_in_order (net : VideoNet) :
    (Step.seekStep ∈ (Video net).2 → net.openSid ≠ "") ∧
    (Step.playStep ∈ (Video net).2 → net.openSid ≠ "" ∧ net.seekOk = true) ∧
    (Step.getStep ∈ (Video net).2 →
      net.openSid ≠ "" ∧ net.seekOk = true ∧ net.playOk = true) ∧
    (net.openSid = "" →
      Video net = ((none, net.openErr), [Step.openStep])) ∧
    (net.openSid ≠ "" → net.seekOk = false →
      Video net = ((none, net.seekErr), [Step.openStep, Step.seekStep])) ∧
    (net.openSid ≠ "" → net.seekOk = true → net.playOk = false →
      Video net =
        ((none, net.playErr), [Step.openStep, Step.seekStep, Step.playStep])) := by
  have hempty : net.openSid.length = 0 ↔ net.openSid = "" := by
    constructor
    · intro h
      by_contra hne
      have := (string_length_pos net.openSid).mpr hne
      omega
    · intro h
      rw [h]
      rfl
  unfold Video
  split_ifs with h1 h2 h3 h4 <;> simp_all [hempty]

/-- C3 witness: with a session id delivered by open but a failing seek,
only open and seek are invoked and the seek error is returned. -/
theorem video_steps_in_order_witness :
    Video ⟨"PS1", none, false, some GoErr.getErr, true, none, true⟩ =
      ((none, some GoErr.getErr), [Step.openStep, Step.seekStep]) :=
  (video_steps_in_order
    ⟨"PS1", none, false, some GoErr.getErr, true, none, true⟩).2.2.2.2.1
    (by decide) rfl

/-! ## C8: query construction round trip -/

/-- An upper-case hex digit decodes back to its value. -/
theorem hexByteVal_hexDigitUpper : ∀ n < 16, hexByteVal (hexDigitUpper n) = some n := by
  decide

/-- `QueryUnescape` inverts `QueryEscape` on every byte sequence. -/
theorem unescapeBytes_queryEscape (s : List Nat) (h : ∀ b ∈ s, b < 256) :
    unescapeBytes (queryEscape s) = some s := by
  induction s with
  | nil => rfl
  | cons b rest ih =>
    have hb : b < 256 := h b (List.mem_cons_self b rest)
    have ih' := ih (fun x hx => h x (List.mem_cons_of_mem _ hx))
    rw [queryEscape, List.flatMap_cons]
    rw [queryEscape] at ih'
    by_cases h32 : b = 32
    · subst h32
      rw [show escapeByte 32 = [43] from rfl]
      show unescapeBytes (43 :: rest.flatMap escapeByte) = some (32 :: rest)
      unfold unescapeBytes
      rw [if_neg (by omega), if_pos rfl, ih']
      rfl
    · by_cases hun : isUnreservedByte b
      · have he : escapeByte b = [b] := by
          unfold escapeByte
          rw [if_neg h32, if_pos hun]
        have hb37 : ¬b = 37 := by
          rintro rfl
          exact absurd hun (by decide)
        have hb43 : ¬b = 43 := by
          rintro rfl
          exact absurd hun (by decide)
        rw [he]
        show unescapeBytes (b :: rest.flatMap escapeByte) = some (b :: rest)
        unfold unescapeBytes
        rw [if_neg hb37, if_neg hb43, ih']
        rfl
      · have he : escapeByte b = [37, hexDigitUpper (b / 16), hexDigitUpper (b % 16)] := by
          unfold escapeByte
          rw [if_neg h32, if_neg (by simpa using hun)]
        rw [he]
        show unescapeBytes (37 :: hexDigitUpper (b / 16) :: hexDigitUpper (b % 16)
            :: rest.flatMap escapeByte) = some (b :: rest)
        have hdiv : b / 16 < 16 := Nat.div_lt_of_lt_mul (by omega)
        have hmod : b % 16 < 16 := Nat.mod_lt _ (by omega)
        unfold unescapeBytes
        rw [if_pos rfl]
        dsimp only
        rw [hexByteVal_hexDigitUpper _ hdiv, hexByteVal_hexDigitUpper _ hmod, ih']
        have hdm : 16 * (b / 16) + b % 16 = b := Nat.div_add_mod b 16
        simp [hdm]

/-- Escaped output never contains a literal `&` (38), `=` (61) or `;`
(59). -/
theorem queryEscape_no_special (s : List Nat) (h : ∀ b ∈ s, b < 256) :
    ∀ x ∈ queryEscape s, ¬x = 38 ∧ ¬x = 61 ∧ ¬x = 59 := by
  intro x hx
  rw [queryEscape, List.mem_flatMap] at hx
  obtain ⟨b, hbmem, hb⟩ := hx
  have hb256 : b < 256 := h b hbmem
  unfold escapeByte at hb
  split_ifs at hb with h32 hun
  · simp at hb
    omega
  · simp at hb
    subst hb
    refine ⟨?_, ?_, ?_⟩ <;> rintro rfl <;> exact absurd hun (by decide)
  · have hdiv : b / 16 < 16 := Nat.div_lt_of_lt_mul (by omega)
    have hmod : b % 16 < 16 := Nat.mod_lt _ (by omega)
    have hdu : ∀ n < 16, (48 ≤ hexDigitUpper n ∧ hexDigitUpper n ≤ 57) ∨
        (65 ≤ hexDigitUpper n ∧ hexDigitUpper n ≤ 70) := by decide
    simp at hb
    rcases hb with rfl | rfl | rfl
    · omega
    · rcases hdu _ hdiv with ⟨h1, h2⟩ | ⟨h1, h2⟩ <;> omega
    · rcases hdu _ hmod with ⟨h1, h2⟩ | ⟨h1, h2⟩ <;> omega

/-- Splitting at the first element that fails the predicate. -/
theorem takeWhile_dropWhile_mid (p : Nat → Bool) (l1 l2 : List Nat) (c : Nat)
    (h1 : ∀ x ∈ l1, p x = true) (h2 : p c = false) :
    (l1 ++ c :: l2).takeWhile p = l1 ∧ (l1 ++ c :: l2).dropWhile p = c :: l2 := by
  induction l1 with
  | nil => simp [List.takeWhile, List.dropWhile, h2]
  | cons a as ih =>
    have ha := h1 a (List.mem_cons_self a as)
    obtain ⟨iht, ihd⟩ := ih (fun x hx => h1 x (List.mem_cons_of_mem _ hx))
    simp [List.takeWhile, List.dropWhile, ha, iht, ihd]

/-- One encoded `key=value` piece parses back to the original pair. -/
theorem parsePiece_encodePair (k v : List Nat)
    (hk : ∀ b ∈ k, b < 256) (hv : ∀ b ∈ v, b < 256) :
    parsePiece (encodePair (k, v)) = some (k, v) := by
  have hpiece : encodePair (k, v) = queryEscape k ++ 61 :: queryEscape v := rfl
  have hsemi : (queryEscape k ++ 61 :: queryEscape v).contains 59 = false := by
    rw [List.contains_eq_any_beq]
    rw [List.any_eq_false]
    intro x hx
    rcases List.mem_append.mp hx with hx | hx
    · have := (queryEscape_no_special k hk x hx).2.2
      simpa using Ne.symm this
    · rcases List.mem_cons.mp hx with rfl | hx
      · decide
      · have := (queryEscape_no_special v hv x hx).2.2
        simpa using Ne.symm this
  have hkeep : ∀ x ∈ queryEscape k, (x != 61) = true := by
    intro x hx
    have := (queryEscape_no_special k hk x hx).2.1
    simpa using this
  have hstop : ((61 : Nat) != 61) = false := by decide
  obtain ⟨htake, hdrop⟩ :=
    takeWhile_dropWhile_mid (fun b => b != 61) (queryEscape k) (queryEscape v) 61 hkeep hstop
  unfold parsePiece
  rw [hpiece, if_neg (by rw [hsemi]; simp), htake, hdrop]
  dsimp only [List.drop]
  rw [unescapeBytes_queryEscape k hk, unescapeBytes_queryEscape v hv]

/-- Splitting a separator-free list yields that list alone. -/
theorem splitOnByte_no_sep (sep : Nat) (p : List Nat) (hp : sep ∉ p) :
    splitOnByte sep p = [p] := by
  induction p with
  | nil => rfl
  | cons b rest ih =>
    have hb : ¬b = sep := fun e => hp (e ▸ List.mem_cons_self b rest)
    have hrest : sep ∉ rest := fun m => hp (List.mem_cons_of_mem _ m)
    unfold splitOnByte
    rw [if_neg hb, ih hrest]

/-- Splitting peels off a separator-free prefix at the first separator. -/
theorem splitOnByte_append (sep : Nat) (p rest : List Nat) (hp : sep ∉ p) :
    splitOnByte sep (p ++ sep :: rest) = p :: splitOnByte sep rest := by
  induction p with
  | nil =>
    show splitOnByte sep (sep :: rest) = [] :: splitOnByte sep rest
    conv_lhs => unfold splitOnByte
    rw [if_pos rfl]
  | cons b bs ih =>
    have hb : ¬b = sep := fun e => hp (e ▸ List.mem_cons_self b bs)
    have hbs : sep ∉ bs := fun m => hp (List.mem_cons_of_mem _ m)
    show splitOnByte sep (b :: (bs ++ sep :: rest)) = (b :: bs) :: splitOnByte sep rest
    conv_lhs => unfold splitOnByte
    rw [if_neg hb, ih hbs]

/-- Splitting inverts joining for separator-free pieces. -/
theorem splitOnByte_intercalate (sep : Nat) (ps : List (List Nat)) (hne : ps ≠ [])
    (h : ∀ p ∈ ps, sep ∉ p) :
    splitOnByte sep (intercalateByte sep ps) = ps := by
  induction ps with
  | nil => exact absurd rfl hne
  | cons p ps ih =>
    cases ps with
    | nil => exact splitOnByte_no_sep sep p (h p (List.mem_cons_self p []))
    | cons q qs =>
      show splitOnByte sep (p ++ sep :: intercalateByte sep (q :: qs)) = p :: q :: qs
      rw [splitOnByte_append sep p _ (h p (List.mem_cons_self p _)),
        ih (by simp) (fun x hx => h x (List.mem_cons_of_mem _ hx))]

/-- Membership after an insertion-sort step. -/
theorem mem_insertSorted (p q : List Nat × List Nat)
    (l : List (List Nat × List Nat)) :
    q ∈ insertSorted p l ↔ q = p ∨ q ∈ l := by
  induction l with
  | nil => simp [insertSorted]
  | cons r rs ih =>
    unfold insertSorted
    split_ifs <;> simp [ih] <;> tauto

/-- An insertion never produces the empty list. -/
theorem insertSorted_ne_nil (p : List Nat × List Nat)
    (l : List (List Nat × List Nat)) : insertSorted p l ≠ [] := by
  cases l with
  | nil => simp [insertSorted]
  | cons r rs =>
    unfold insertSorted
    split_ifs <;> simp

/-- Sorting preserves membership. -/
theorem mem_sortParams (q : List Nat × List Nat) (l : List (List Nat × List Nat)) :
    q ∈ sortParams l ↔ q ∈ l := by
  induction l with
  | nil => rfl
  | cons p ps ih =>
    unfold sortParams
    rw [mem_insertSorted, ih]
    simp

/-- Sorting preserves non-emptiness. -/
theorem sortParams_ne_nil (l : List (List Nat × List Nat)) (h : l ≠ []) :
    sortParams l ≠ [] := by
  cases l with
  | nil => exact absurd rfl h
  | cons p ps => exact insertSorted_ne_nil p (sortParams ps)

/-- The piece loop of `ParseQuery` recovers every encoded pair. -/
theorem parsePieces_encodePair (ps : List (List Nat × List Nat))
    (h : ∀ p ∈ ps, (∀ b ∈ p.1, b < 256) ∧ (∀ b ∈ p.2, b < 256)) :
    parsePieces (ps.map encodePair) = some ps := by
  induction ps with
  | nil => rfl
  | cons p rest ih =>
    obtain ⟨hk, hv⟩ := h p (List.mem_cons_self p rest)
    have hp : parsePiece (encodePair p) = some p := parsePiece_encodePair p.1 p.2 hk hv
    have ih' := ih (fun x hx => h x (List.mem_cons_of_mem _ hx))
    rw [List.map_cons]
    unfold parsePieces
    rw [hp, ih']

/-- An encoded pair is never the empty piece (it contains the `=`). -/
theorem encodePair_not_empty (p : List Nat × List Nat) :
    ((encodePair p).isEmpty = false) := by
  unfold encodePair
  cases hq : queryEscape p.1 <;> simp

/-- UTF-8 bytes are bytes. -/
theorem utf8EncodeChar_lt (ch : Char) : ∀ b ∈ utf8EncodeChar ch, b < 256 := by
  have hval : ch.toNat < 1114112 := by
    rcases ch.valid with hv | ⟨hv1, hv2⟩
    · exact Nat.lt_trans hv (by norm_num)
    · exact hv2
  intro b hb
  unfold utf8EncodeChar at hb
  dsimp only at hb
  split_ifs at hb with h1 h2 h3
  · simp at hb
    omega
  · have hd : ch.toNat / 64 < 32 := Nat.div_lt_of_lt_mul (by omega)
    have hm : ch.toNat % 64 < 64 := Nat.mod_lt _ (by omega)
    simp at hb
    rcases hb with rfl | rfl <;> omega
  · have hd : ch.toNat / 4096 < 16 := Nat.div_lt_of_lt_mul (by omega)
    have hd2 : ch.toNat / 64 % 64 < 64 := Nat.mod_lt _ (by omega)
    have hm : ch.toNat % 64 < 64 := Nat.mod_lt _ (by omega)
    simp at hb
    rcases hb with rfl | rfl | rfl <;> omega
  · have hd : ch.toNat / 262144 < 5 := Nat.div_lt_of_lt_mul (by omega)
    have hd2 : ch.toNat / 4096 % 64 < 64 := Nat.mod_lt _ (by omega)
    have hd3 : ch.toNat / 64 % 64 < 64 := Nat.mod_lt _ (by omega)
    have hm : ch.toNat % 64 < 64 := Nat.mod_lt _ (by omega)
    simp at hb
    rcases hb with rfl | rfl | rfl | rfl <;> omega

/-- All bytes of a string's UTF-8 form are below 256. -/
theorem utf8Bytes_lt (s : String) : ∀ b ∈ utf8Bytes s, b < 256 := by
  intro b hb
  rw [utf8Bytes, List.mem_flatMap] at hb
  obtain ⟨ch, _, hch⟩ := hb
  exact utf8EncodeChar_lt ch b hch

/-- `url.ParseQuery` inverts `url.Values.Encode` for every non-empty
parameter list: the query string parses back successfully to exactly the
parameters that were added, in `Encode`'s sorted-key order, with every
value's reserved bytes escaped and unescaped intact. -/
theorem parseQueryBytes_encodeQuery (ps : List (String × String)) (hne : ps ≠ []) :
    parseQueryBytes (encodeQuery ps) =
      some (sortParams (ps.map fun p => (utf8Bytes p.1, utf8Bytes p.2))) := by
  have hbound : ∀ p ∈ sortParams (ps.map fun p => (utf8Bytes p.1, utf8Bytes p.2)),
      (∀ b ∈ p.1, b < 256) ∧ (∀ b ∈ p.2, b < 256) := by
    intro p hp
    rw [mem_sortParams, List.mem_map] at hp
    obtain ⟨q, -, rfl⟩ := hp
    exact ⟨utf8Bytes_lt _, utf8Bytes_lt _⟩
  have hnonempty : sortParams (ps.map fun p => (utf8Bytes p.1, utf8Bytes p.2)) ≠ [] :=
    sortParams_ne_nil _ (by simpa using hne)
  have hno38 : ∀ piece ∈ (sortParams (ps.map fun p => (utf8Bytes p.1, utf8Bytes p.2))).map
      encodePair, (38 : Nat) ∉ piece := by
    intro piece hpiece
    rw [List.mem_map] at hpiece
    obtain ⟨p, hp, rfl⟩ := hpiece
    obtain ⟨hk, hv⟩ := hbound p hp
    intro hmem
    have : encodePair p = queryEscape p.1 ++ 61 :: queryEscape p.2 := rfl
    rw [this] at hmem
    rcases List.mem_append.mp hmem with hx | hx
    · exact (queryEscape_no_special p.1 hk 38 hx).1 rfl
    · rcases List.mem_cons.mp hx with he | hx
      · omega
      · exact (queryEscape_no_special p.2 hv 38 hx).1 rfl
  unfold parseQueryBytes encodeQuery
  rw [splitOnByte_intercalate 38 _ (by simpa using hnonempty) hno38]
  rw [List.filter_eq_self.mpr]
  · exact parsePieces_encodePair _ hbound
  · intro piece hpiece
    rw [List.mem_map] at hpiece
    obtain ⟨p, -, rfl⟩ := hpiece
    simp [encodePair_not_empty p]

/-- The sorted-key order `Encode` uses for the logs parameters. -/
theorem logsParamsV2_sorted (c : Connection) (lt : Nat) (st mr : Int) :
    sortParams ((logsParamsV2 c lt st mr).map fun p => (utf8Bytes p.1, utf8Bytes p.2)) =
      [(utf8Bytes "dir", utf8Bytes "ASC")]
      ++ (if lt ≠ 0 then [(utf8Bytes "log_type", utf8Bytes (itoa (lt : Int)))] else [])
      ++ [(utf8Bytes "max_results", utf8Bytes (itoa mr)),
          (utf8Bytes "sid", utf8Bytes c.sid),
          (utf8Bytes "sort_field", utf8Bytes "time")]
      ++ (if st ≠ 0 then [(utf8Bytes "start_time", utf8Bytes (itoa st))] else []) := by
  have d1 : byteLexLt (utf8Bytes "dir") (utf8Bytes "max_results") = true := by decide
  have d2 : byteLexLt (utf8Bytes "dir") (utf8Bytes "sort_field") = true := by decide
  have d3 : byteLexLt (utf8Bytes "max_results") (utf8Bytes "sort_field") = true := by decide
  have d4 : byteLexLt (utf8Bytes "dir") (utf8Bytes "start_time") = true := by decide
  have d5 : byteLexLt (utf8Bytes "max_results") (utf8Bytes "start_time") = true := by decide
  have d6 : byteLexLt (utf8Bytes "sort_field") (utf8Bytes "start_time") = true := by decide
  have d7 : byteLexLt (utf8Bytes "dir") (utf8Bytes "log_type") = true := by decide
  have d8 : byteLexLt (utf8Bytes "max_results") (utf8Bytes "log_type") = false := by decide
  have d9 : byteLexLt (utf8Bytes "dir") (utf8Bytes "sid") = true := by decide
  have d10 : byteLexLt (utf8Bytes "log_type") (utf8Bytes "sid") = true := by decide
  have d11 : byteLexLt (utf8Bytes "max_results") (utf8Bytes "sid") = true := by decide
  have d12 : byteLexLt (utf8Bytes "sort_field") (utf8Bytes "sid") = false := by decide
  by_cases h1 : lt = 0 <;> by_cases h2 : st = 0 <;>
    simp [logsParamsV2, h1, h2, sortParams, insertSorted,
      d1, d2, d3, d4, d5, d6, d7, d8, d9, d10, d11, d12]

/-- The sorted-key order `Encode` uses for the login parameters. -/
theorem loginParams_sorted (user password : String) :
    sortParams ((loginParams user password).map fun p => (utf8Bytes p.1, utf8Bytes p.2)) =
      [(utf8Bytes "pwd", utf8Bytes password),
       (utf8Bytes "serviceKey", utf8Bytes "1"),
       (utf8Bytes "user", utf8Bytes user)] := by
  have d1 : byteLexLt (utf8Bytes "user") (utf8Bytes "pwd") = false := by decide
  have d2 : byteLexLt (utf8Bytes "pwd") (utf8Bytes "serviceKey") = true := by decide
  have d3 : byteLexLt (utf8Bytes "user") (utf8Bytes "serviceKey") = false := by decide
  simp [loginParams, sortParams, insertSorted, d1, d2, d3]

/-- C8 (amended): the logs query string parses back successfully and
contains exactly the parameters the code adds — `sid`, `sort_field=time`,
`max_results`, `dir=ASC` always, `log_type` only when the filter is not
`AllLogType` (0) and `start_time` only when the start time is non-zero —
and the login query string likewise parses back to exactly `serviceKey`,
`pwd` and `user`, with reserved characters in values (such as `&` in a
password) surviving the escape/parse round trip intact. -/
theorem logs_login_queries_round_trip (c : Connection) (lt : Nat) (st mr : Int)
    (user password : String) :
    parseQueryBytes (encodeQuery (logsParamsV2 c lt st mr)) =
      some ([(utf8Bytes "dir", utf8Bytes "ASC")]
        ++ (if lt ≠ 0 then [(utf8Bytes "log_type", utf8Bytes (itoa (lt : Int)))] else [])
        ++ [(utf8Bytes "max_results", utf8Bytes (itoa mr)),
            (utf8Bytes "sid", utf8Bytes c.sid),
            (utf8Bytes "sort_field", utf8Bytes "time")]
        ++ (if st ≠ 0 then [(utf8Bytes "start_time", utf8Bytes (itoa st))] else [])) ∧
    parseQueryBytes (encodeQuery (loginParams user password)) =
      some [(utf8Bytes "pwd", utf8Bytes password),
            (utf8Bytes "serviceKey", utf8Bytes "1"),
            (utf8Bytes "user", utf8Bytes user)] := by
  constructor
  · rw [parseQueryBytes_encodeQuery _ (by simp [logsParamsV2])]
    rw [logsParamsV2_sorted]
  · rw [parseQueryBytes_encodeQuery _ (by simp [loginParams])]
    rw [loginParams_sorted]

/-- C8 counterexample: with the `AllLogType` filter (0) and start time 0,
the constructed logs query parses back to exactly `dir`, `max_results`,
`sid` and `sort_field` — the documented `log_type` and `start_time`
parameters are absent, so the URL does not contain exactly the documented
parameter set. -/
theorem logsQuery_omits_log_type :
    (parseQueryBytes (encodeQuery
        (logsParamsV2 ⟨"https://nas", "SID", 99, 60, "qvrpro"⟩ 0 0 50))).map
        (fun l => l.map Prod.fst) =
      some [utf8Bytes "dir", utf8Bytes "max_results", utf8Bytes "sid",
        utf8Bytes "sort_field"] ∧
    utf8Bytes "log_type" ∉ [utf8Bytes "dir", utf8Bytes "max_results",
      utf8Bytes "sid", utf8Bytes "sort_field"] ∧
    utf8Bytes "start_time" ∉ [utf8Bytes "dir", utf8Bytes "max_results",
      utf8Bytes "sid", utf8Bytes "sort_field"] := by
  decide
